import Mathlib

/-!
Verification of the Nexmo IVR client (`nexmo` package): URL signature
canonicalization (`calculateSignature`, `ValidateRequestSignature`), the
transfer-leg coordination of `PreprocessStatus` / `PreprocessResume` over the
Redis correlation store, NCCO script building (`responseForSprint`), and the
webhook interpreters (`StatusForRequest`, `ResumeForRequest`, `URNForRequest`,
`CallIDForRequest`, `readBody`).

Modelling conventions:
- Go byte strings are Lean `String`s; a `bytes.Buffer` is a `List Char`.
- URL query strings are represented decoded, as ordered key/value pair lists
  (`url.QueryEscape` on write and query parsing on read cancel out).
- The crypto primitive base64(HMAC-SHA1(key, bytes)) is an uninterpreted
  function parameter `mac : String → List Char → String`; where a signature is
  merely attached to a URL string (not recomputed structurally) the
  string-level `c.calculateSignature` is abstracted as `sigOf/sigEsc`.
- Redis is an association list threaded through the functions; outbound HTTP
  (`makeRequest`) is a function parameter returning the response status code.
-/

namespace Nexmo

deriving instance DecidableEq for Except

/-! ### Byte-wise string comparison and sorting (models Go `sort.Strings`) -/

/-- Lexicographic strict order on character lists, by code point (agrees with
Go's byte-wise comparison since UTF-8 preserves code-point order). -/
def lexLt : List Char → List Char → Bool
  | [], [] => false
  | [], _ :: _ => true
  | _ :: _, [] => false
  | a :: as, b :: bs =>
    if a.toNat < b.toNat then true
    else if b.toNat < a.toNat then false
    else lexLt as bs

/-- Go `a < b` on strings. -/
def strLt (a b : String) : Bool := lexLt a.data b.data

theorem char_toNat_inj {a b : Char} (h : a.toNat = b.toNat) : a = b :=
  Char.ext (UInt32.ext h)

theorem strData_inj {a b : String} (h : a.data = b.data) : a = b :=
  congrArg String.mk h

theorem lexLt_irrefl : ∀ l : List Char, lexLt l l = false := by
  intro l
  induction l with
  | nil => rfl
  | cons c cs ih => simp [lexLt, ih]

theorem lexLt_trans :
    ∀ a b c : List Char, lexLt a b = true → lexLt b c = true → lexLt a c = true := by
  intro a
  induction a with
  | nil =>
    intro b c h1 h2
    cases b with
    | nil => simp [lexLt] at h1
    | cons x xs =>
      cases c with
      | nil => simp [lexLt] at h2
      | cons y ys => simp [lexLt]
  | cons a as ih =>
    intro b c h1 h2
    cases b with
    | nil => simp [lexLt] at h1
    | cons x xs =>
      cases c with
      | nil => simp [lexLt] at h2
      | cons y ys =>
        simp only [lexLt] at h1 h2 ⊢
        rcases Nat.lt_trichotomy a.toNat x.toNat with hax | hax | hax
        · rcases Nat.lt_trichotomy x.toNat y.toNat with hxy | hxy | hxy
          · rw [if_pos (Nat.lt_trans hax hxy)]
          · rw [if_pos (hxy ▸ hax)]
          · rw [if_neg (Nat.lt_asymm hxy), if_pos hxy] at h2
            exact absurd h2 (by simp)
        · rw [if_neg (by omega), if_neg (by omega)] at h1
          rcases Nat.lt_trichotomy x.toNat y.toNat with hxy | hxy | hxy
          · rw [if_pos (by omega)]
          · rw [if_neg (by omega), if_neg (by omega)] at h2
            rw [if_neg (by omega), if_neg (by omega)]
            exact ih xs ys h1 h2
          · rw [if_neg (by omega), if_pos (by omega)] at h2
            exact absurd h2 (by simp)
        · rw [if_neg (by omega), if_pos (by omega)] at h1
          exact absurd h1 (by simp)

theorem lexLt_antisymm :
    ∀ a b : List Char, lexLt a b = false → lexLt b a = false → a = b := by
  intro a
  induction a with
  | nil =>
    intro b h1 _
    cases b with
    | nil => rfl
    | cons x xs => simp [lexLt] at h1
  | cons a as ih =>
    intro b h1 h2
    cases b with
    | nil => simp [lexLt] at h2
    | cons x xs =>
      simp only [lexLt] at h1 h2
      rcases Nat.lt_trichotomy a.toNat x.toNat with hax | hax | hax
      · rw [if_pos hax] at h1
        exact absurd h1 (by simp)
      · rw [if_neg (by omega), if_neg (by omega)] at h1
        rw [if_neg (by omega), if_neg (by omega)] at h2
        rw [char_toNat_inj hax, ih xs h1 h2]
      · rw [if_pos hax] at h2
        exact absurd h2 (by simp)

theorem strLt_irrefl (a : String) : strLt a a = false := lexLt_irrefl a.data

theorem strLt_trans {a b c : String} (h1 : strLt a b = true) (h2 : strLt b c = true) :
    strLt a c = true := lexLt_trans a.data b.data c.data h1 h2

theorem strLt_antisymm {a b : String} (h1 : strLt a b = false) (h2 : strLt b a = false) :
    a = b := strData_inj (lexLt_antisymm a.data b.data h1 h2)

theorem strLt_asymm {a b : String} (h : strLt a b = true) : strLt b a = false := by
  by_contra hc
  have hb : strLt b a = true := by
    cases hba : strLt b a with
    | false => exact absurd hba hc
    | true => rfl
  have := strLt_trans h hb
  rw [strLt_irrefl] at this
  exact Bool.false_ne_true this

theorem strLt_of_not_lt_of_lt {x t s : String}
    (h1 : strLt x t = false) (h2 : strLt x s = true) : strLt t s = true := by
  cases hts : strLt t s with
  | true => rfl
  | false =>
    cases hst : strLt s t with
    | true =>
      have := strLt_trans h2 hst
      rw [this] at h1
      exact absurd h1 (by simp)
    | false =>
      have hEq : s = t := strLt_antisymm hst hts
      rw [← hEq] at h1
      rw [h2] at h1
      exact absurd h1 (by simp)

/-- Insert a string into an ascending list, after every smaller element. -/
def insertStr (s : String) : List String → List String
  | [] => [s]
  | t :: ts => if strLt t s then t :: insertStr s ts else s :: t :: ts

/-- Insertion sort; extensionally Go's `sort.Strings` (ascending byte order). -/
def sortStrings : List String → List String
  | [] => []
  | s :: rest => insertStr s (sortStrings rest)

theorem insertStr_perm (s : String) (l : List String) :
    List.Perm (insertStr s l) (s :: l) := by
  induction l with
  | nil => exact List.Perm.refl _
  | cons t ts ih =>
    by_cases h : strLt t s = true
    · simp only [insertStr, h, if_true]
      exact ((ih.cons t).trans (List.Perm.swap s t ts))
    · simp only [insertStr, h, if_false]
      exact List.Perm.refl _

theorem sortStrings_perm (l : List String) : List.Perm (sortStrings l) l := by
  induction l with
  | nil => exact List.Perm.refl _
  | cons s rest ih => exact (insertStr_perm s (sortStrings rest)).trans (ih.cons s)

/-- Ascending (non-strict) ordering predicate used for sortedness. -/
def StrAsc (l : List String) : Prop := l.Pairwise (fun a b => strLt b a = false)

theorem insertStr_asc {s : String} {l : List String} (h : StrAsc l) :
    StrAsc (insertStr s l) := by
  induction l with
  | nil => exact List.pairwise_singleton _ s
  | cons t ts ih =>
    rcases List.pairwise_cons.mp h with ⟨ht, hts⟩
    by_cases hc : strLt t s = true
    · simp only [insertStr, hc, if_true]
      refine List.pairwise_cons.mpr ⟨?_, ih hts⟩
      intro x hx
      rcases List.mem_cons.mp ((insertStr_perm s ts).mem_iff.mp hx) with hxs | hxts
      · rw [hxs]; exact strLt_asymm hc
      · exact ht x hxts
    · have hc' : strLt t s = false := by
        cases hts' : strLt t s with
        | false => rfl
        | true => exact absurd hts' hc
      simp only [insertStr, hc, if_false]
      refine List.pairwise_cons.mpr ⟨?_, h⟩
      intro x hx
      rcases List.mem_cons.mp hx with hxt | hxts
      · rw [hxt]; exact hc'
      · cases hxs : strLt x s with
        | false => rfl
        | true =>
          have hxt' : strLt x t = false := ht x hxts
          have := strLt_of_not_lt_of_lt hxt' hxs
          rw [this] at hc'
          exact absurd hc' (by simp)

theorem sortStrings_asc (l : List String) : StrAsc (sortStrings l) := by
  induction l with
  | nil => exact List.Pairwise.nil
  | cons s rest ih => exact insertStr_asc ih

/-- Two ascending duplicate-free string lists with the same members are equal. -/
theorem sorted_nodup_ext :
    ∀ l₁ l₂ : List String, StrAsc l₁ → StrAsc l₂ → l₁.Nodup → l₂.Nodup →
      (∀ x, x ∈ l₁ ↔ x ∈ l₂) → l₁ = l₂ := by
  intro l₁
  induction l₁ with
  | nil =>
    intro l₂ _ _ _ _ hx
    cases l₂ with
    | nil => rfl
    | cons b bs => exact absurd ((hx b).mpr (List.mem_cons_self b bs)) (List.not_mem_nil b)
  | cons a as ih =>
    intro l₂ h1 h2 n1 n2 hx
    cases l₂ with
    | nil => exact absurd ((hx a).mp (List.mem_cons_self a as)) (List.not_mem_nil a)
    | cons b bs =>
      rcases List.pairwise_cons.mp h1 with ⟨ha, has⟩
      rcases List.pairwise_cons.mp h2 with ⟨hb, hbs⟩
      rcases List.nodup_cons.mp n1 with ⟨na, nas⟩
      rcases List.nodup_cons.mp n2 with ⟨nb, nbs⟩
      have hab : a = b := by
        rcases List.mem_cons.mp ((hx a).mp (List.mem_cons_self a as)) with h | hmem
        · exact h
        · rcases List.mem_cons.mp ((hx b).mpr (List.mem_cons_self b bs)) with h | hmem'
          · exact h.symm
          · exact (strLt_antisymm (ha b hmem') (hb a hmem)).symm
      subst hab
      have htail : ∀ x, x ∈ as ↔ x ∈ bs := by
        intro x
        constructor
        · intro hmem
          have hxa : x ≠ a := fun hEq => na (hEq ▸ hmem)
          rcases List.mem_cons.mp ((hx x).mp (List.mem_cons_of_mem a hmem)) with h | h
          · exact absurd h hxa
          · exact h
        · intro hmem
          have hxa : x ≠ a := fun hEq => nb (hEq ▸ hmem)
          rcases List.mem_cons.mp ((hx x).mpr (List.mem_cons_of_mem a hmem)) with h | h
          · exact absurd h hxa
          · exact h
      rw [ih bs has hbs nas nbs htail]

/-- Distinct elements of a list, as for the key set of a Go map. -/
def dedupStr : List String → List String
  | [] => []
  | k :: ks => if k ∈ ks then dedupStr ks else k :: dedupStr ks

theorem mem_dedupStr {x : String} : ∀ {l : List String}, x ∈ dedupStr l ↔ x ∈ l := by
  intro l
  induction l with
  | nil => simp [dedupStr]
  | cons k ks ih =>
    by_cases h : k ∈ ks
    · simp only [dedupStr, h, if_true, List.mem_cons, ih]
      constructor
      · exact Or.inr
      · rintro (rfl | hm)
        · exact h
        · exact hm
    · simp [dedupStr, h, ih]

theorem nodup_dedupStr : ∀ l : List String, (dedupStr l).Nodup := by
  intro l
  induction l with
  | nil => exact List.nodup_nil
  | cons k ks ih =>
    by_cases h : k ∈ ks
    · simpa [dedupStr, h] using ih
    · simp only [dedupStr, h, if_false]
      exact List.nodup_cons.mpr ⟨fun hm => h (mem_dedupStr.mp hm), ih⟩

/-! ### Small Go stdlib helpers -/

/-- Go `strings.HasSuffix` (and `String.endsWith` on byte strings). -/
def endsWithB (s suffix : String) : Bool :=
  s.data.drop (s.data.length - suffix.data.length) == suffix.data

/-- Go `strings.TrimLeft(s, "+")`. -/
def trimLeftPlus (s : String) : String :=
  String.mk (s.data.dropWhile (fun c => c == '+'))

def parseDigitsAux : Nat → List Char → Option Nat
  | acc, [] => some acc
  | acc, c :: cs =>
    if 48 ≤ c.toNat && c.toNat ≤ 57 then parseDigitsAux (acc * 10 + (c.toNat - 48)) cs
    else none

/-- Go `strconv.Atoi` (sign plus decimal digits; the 64-bit range check is not
modelled — no claim involves out-of-range numerals). -/
def atoi (s : String) : Option Int :=
  match s.data with
  | [] => none
  | ['+'] => none
  | ['-'] => none
  | '+' :: ds => (parseDigitsAux 0 ds).map Int.ofNat
  | '-' :: ds => (parseDigitsAux 0 ds).map (fun n => -(n : Int))
  | ds => (parseDigitsAux 0 ds).map Int.ofNat

def splitColonAux : List Char → Option (List Char × List Char)
  | [] => none
  | ':' :: rest => some ([], rest)
  | c :: rest => (splitColonAux rest).map (fun p => (c :: p.1, p.2))

/-- Go `strings.SplitN(s, ":", 2)` as used with `parts[0], parts[1]`: `none`
when the string has no colon (there the Go code would panic on `parts[1]`). -/
def splitColon (s : String) : Option (String × String) :=
  (splitColonAux s.data).map (fun p => (String.mk p.1, String.mk p.2))

/-! ### URL query model and `calculateSignature` -/

/-- A decoded query string: key/value pairs in serialization order. -/
abbrev Query := List (String × String)

/-- Go `url.Values` lookup `form[k]`: the values of key `k` in occurrence
order. -/
def valuesOf (q : Query) (k : String) : List String :=
  (q.filter (fun p => p.1 == k)).map (fun p => p.2)

/-- Go `url.Values.Get`: first value of the key, `""` when absent. -/
def queryGet (q : Query) (k : String) : String :=
  match valuesOf q k with
  | [] => ""
  | v :: _ => v

/-- The parsed-URL fields `calculateSignature` reads from `url.Parse`. -/
structure URL where
  scheme : String
  host : String
  path : String
  query : Query
deriving DecidableEq

/-- The query's distinct keys, sorted ascending (Go collects the `url.Values`
map keys and runs `keys.Sort()`). -/
def sortedKeys (q : Query) : List String :=
  sortStrings (dedupStr (q.map Prod.fst))

/-- The byte buffer `calculateSignature` hashes: scheme, "://", host, path,
then for each sorted key except `sig` the key followed by the concatenation of
its values. -/
def canonical (u : URL) : List Char :=
  (u.scheme ++ "://" ++ u.host ++ u.path).data ++
    (((sortedKeys u.query).filter (fun k => !(k == "sig"))).map
      (fun k => k.data ++ ((valuesOf u.query k).map String.data).flatten)).flatten

/-- `calculateSignature`: keyed hash of the canonical buffer under the app ID,
base64-encoded; `mac` stands for base64(HMAC-SHA1(key, bytes)). -/
def calculateSignature (mac : String → List Char → String) (appID : String) (u : URL) : String :=
  mac appID (canonical u)

theorem valuesOf_append (q₁ q₂ : Query) (k : String) :
    valuesOf (q₁ ++ q₂) k = valuesOf q₁ k ++ valuesOf q₂ k := by
  simp [valuesOf, List.filter_append]

theorem valuesOf_eq_nil_iff {q : Query} {k : String} :
    valuesOf q k = [] ↔ k ∉ q.map Prod.fst := by
  simp only [valuesOf, List.map_eq_nil_iff, List.filter_eq_nil_iff, List.mem_map]
  constructor
  · rintro h ⟨p, hp, hpk⟩
    exact h p hp (by simp [hpk])
  · intro h p hp hpk
    exact h ⟨p, hp, by simpa using hpk⟩

theorem mem_sortedKeys {q : Query} {k : String} :
    k ∈ sortedKeys q ↔ k ∈ q.map Prod.fst := by
  unfold sortedKeys
  rw [(sortStrings_perm _).mem_iff, mem_dedupStr]

theorem nodup_sortedKeys (q : Query) : (sortedKeys q).Nodup :=
  (sortStrings_perm (dedupStr (q.map Prod.fst))).symm.nodup (nodup_dedupStr _)

theorem asc_sortedKeys (q : Query) : StrAsc (sortedKeys q) :=
  sortStrings_asc _

/-- The filtered, sorted key list is determined by key membership alone. -/
theorem filter_sortedKeys_ext {q q' : Query}
    (h : ∀ k, k ≠ "sig" → (k ∈ q.map Prod.fst ↔ k ∈ q'.map Prod.fst)) :
    (sortedKeys q).filter (fun k => !(k == "sig")) =
      (sortedKeys q').filter (fun k => !(k == "sig")) := by
  apply sorted_nodup_ext
  · exact (asc_sortedKeys q).sublist (List.filter_sublist _)
  · exact (asc_sortedKeys q').sublist (List.filter_sublist _)
  · exact (nodup_sortedKeys q).filter _
  · exact (nodup_sortedKeys q').filter _
  · intro x
    simp only [List.mem_filter, mem_sortedKeys, Bool.not_eq_eq_eq_not, Bool.not_true,
      beq_eq_false_iff_ne, ne_eq]
    constructor
    · rintro ⟨hm, hs⟩
      exact ⟨(h x hs).mp hm, hs⟩
    · rintro ⟨hm, hs⟩
      exact ⟨(h x hs).mpr hm, hs⟩

/-- `canonical` depends only on the non-`sig` key set and their value lists. -/
theorem canonical_ext {scheme host path : String} {q q' : Query}
    (h1 : ∀ k, k ≠ "sig" → valuesOf q k = valuesOf q' k)
    (h2 : ∀ k, k ≠ "sig" → (k ∈ q.map Prod.fst ↔ k ∈ q'.map Prod.fst)) :
    canonical ⟨scheme, host, path, q⟩ = canonical ⟨scheme, host, path, q'⟩ := by
  unfold canonical
  congr 1
  rw [filter_sortedKeys_ext h2]
  congr 1
  apply List.map_congr_left
  intro k hk
  have hks : k ≠ "sig" := by
    have := List.of_mem_filter hk
    simpa using this
  rw [h1 k hks]

/-- Appending a `sig` parameter does not change the canonical buffer. -/
theorem canonical_strip_sig (scheme host path : String) (q : Query) (s : String) :
    canonical ⟨scheme, host, path, q ++ [("sig", s)]⟩ = canonical ⟨scheme, host, path, q⟩ := by
  apply canonical_ext
  · intro k hk
    rw [valuesOf_append]
    have : valuesOf [("sig", s)] k = [] := by
      simp [valuesOf, beq_eq_false_iff_ne, Ne.symm hk]
    rw [this, List.append_nil]
  · intro k hk
    simp only [List.map_append, List.mem_append]
    constructor
    · rintro (hm | hm)
      · exact hm
      · simp at hm
        exact absurd hm hk
    · exact Or.inl

theorem valuesOf_alter_eq {A B : Query} {k v v' x : String} (hx : x ≠ k) :
    valuesOf (A ++ (k, v) :: B) x = valuesOf (A ++ (k, v') :: B) x := by
  have hk : (k == x) = false := beq_eq_false_iff_ne.mpr (Ne.symm hx)
  simp [valuesOf, List.filter_append, List.filter_cons, hk]

theorem valuesOf_alter_self (A B : Query) (k v : String) :
    valuesOf (A ++ (k, v) :: B) k = valuesOf A k ++ v :: valuesOf B k := by
  simp [valuesOf, List.filter_append, List.filter_cons]

/-- Altering one query value (same key, same position) changes the canonical
buffer. -/
theorem canonical_ne_alter (scheme host path k v v' : String) (A B : Query)
    (hk : k ≠ "sig") (hv : v ≠ v') :
    canonical ⟨scheme, host, path, A ++ (k, v) :: B⟩ ≠
      canonical ⟨scheme, host, path, A ++ (k, v') :: B⟩ := by
  have hkeys : (A ++ (k, v) :: B).map Prod.fst = (A ++ (k, v') :: B).map Prod.fst := by
    simp
  have hsk : sortedKeys (A ++ (k, v) :: B) = sortedKeys (A ++ (k, v') :: B) := by
    unfold sortedKeys
    rw [hkeys]
  have hkmem : k ∈ (sortedKeys (A ++ (k, v) :: B)).filter (fun x => !(x == "sig")) := by
    rw [List.mem_filter]
    refine ⟨mem_sortedKeys.mpr ?_, by simp [hk]⟩
    simp
  obtain ⟨C, D, hCD⟩ := List.append_of_mem hkmem
  have hnd : ((sortedKeys (A ++ (k, v) :: B)).filter (fun x => !(x == "sig"))).Nodup :=
    (nodup_sortedKeys _).filter _
  rw [hCD] at hnd
  have hmid := List.nodup_middle.mp hnd
  rcases List.nodup_cons.mp hmid with ⟨hkCD, _⟩
  have hkC : k ∉ C := fun hc => hkCD (List.mem_append.mpr (Or.inl hc))
  have hkD : k ∉ D := fun hd => hkCD (List.mem_append.mpr (Or.inr hd))
  unfold canonical
  intro hEq
  have h2 := List.append_cancel_left hEq
  rw [← hsk, hCD] at h2
  simp only [List.map_append, List.map_cons, List.flatten_append, List.flatten_cons] at h2
  have hC :
      C.map (fun x => x.data ++ ((valuesOf (A ++ (k, v) :: B) x).map String.data).flatten) =
      C.map (fun x => x.data ++ ((valuesOf (A ++ (k, v') :: B) x).map String.data).flatten) := by
    apply List.map_congr_left
    intro x hx
    rw [valuesOf_alter_eq (fun hEq2 => hkC (by rw [← hEq2]; exact hx))]
  have hD :
      D.map (fun x => x.data ++ ((valuesOf (A ++ (k, v) :: B) x).map String.data).flatten) =
      D.map (fun x => x.data ++ ((valuesOf (A ++ (k, v') :: B) x).map String.data).flatten) := by
    apply List.map_congr_left
    intro x hx
    rw [valuesOf_alter_eq (fun hEq2 => hkD (by rw [← hEq2]; exact hx))]
  rw [hC, hD] at h2
  have h3 := List.append_cancel_left h2
  have h4 := List.append_cancel_right h3
  have h5 := List.append_cancel_left h4
  rw [valuesOf_alter_self, valuesOf_alter_self] at h5
  simp only [List.map_append, List.map_cons, List.flatten_append, List.flatten_cons] at h5
  have h6 := List.append_cancel_left h5
  have h7 := List.append_cancel_right h6
  exact hv (strData_inj h7)

theorem queryGet_sig_append {q : Query} (s : String) (h : "sig" ∉ q.map Prod.fst) :
    queryGet (q ++ [("sig", s)]) "sig" = s := by
  unfold queryGet
  rw [valuesOf_append, valuesOf_eq_nil_iff.mpr h]
  simp [valuesOf]

/-! ### Request bodies, the Redis store, and HTTP requests -/

/-- A request body as seen by the JSON helpers: absent/empty bytes, malformed
JSON, or an object of string-valued fields. -/
inductive Body
  | empty
  | malformed
  | json (fields : Query)
deriving DecidableEq

inductive JsonErr
  | malformedJson
  | keyNotFound
deriving DecidableEq

/-- First value of a JSON object field (jsonparser matches the first
occurrence of a key). -/
def lookupField (fields : Query) (k : String) : Option String :=
  (fields.find? (fun p => p.1 == k)).map (fun p => p.2)

/-- `jsonparser.GetString(body, k)`. On empty bytes no key can be found; on
malformed bytes it reports `MalformedJsonError`. -/
def Body.getString : Body → String → Except JsonErr String
  | .empty, _ => .error .keyNotFound
  | .malformed, _ => .error .malformedJson
  | .json fields, k =>
    match lookupField fields k with
    | some v => .ok v
    | none => .error .keyNotFound

/-- `v, _ := jsonparser.GetString(...)`: the error is discarded and the zero
value `""` used. -/
def Body.getStringD (b : Body) (k : String) : String :=
  (b.getString k).toOption.getD ""

/-- `json.Unmarshal` into a struct of string fields: `none` is an unmarshal
error (empty or malformed bytes); missing fields read as `""`. -/
def Body.unmarshal : Body → Option Query
  | .empty => none
  | .malformed => none
  | .json fields => some fields

/-- The Redis correlation store: (key, value, TTL seconds), most recent entry
first. -/
abbrev Store := List (String × String × Nat)

/-- `redis.String(rc.Do("get", k))`; `none` is `redis.ErrNil`. -/
def Store.get (s : Store) (k : String) : Option String :=
  (s.find? (fun e => e.1 == k)).map (fun e => e.2.1)

/-- A key's value and remaining TTL, for inspecting what `setex` stored. -/
def Store.getEntry (s : Store) (k : String) : Option (String × Nat) :=
  (s.find? (fun e => e.1 == k)).map (fun e => e.2)

/-- `rc.Do("setex", k, ttl, v)`. -/
def Store.setex (s : Store) (k : String) (ttl : Nat) (v : String) : Store :=
  (k, v, ttl) :: s

/-- `rc.Do("del", k)`. -/
def Store.del (s : Store) (k : String) : Store :=
  s.filter (fun e => !(e.1 == k))

/-- The parts of `*http.Request` the adapter reads. `xForwardedPath` carries
the path and query of the `X-Forwarded-Path` header when present; `bodyRead`
is the outcome of reading the request body (`.error` models an I/O failure
mid-read). -/
structure Request where
  host : String := ""
  path : String := ""
  query : Query := []
  xForwardedPath : Option (String × Query) := none
  form : Query := []
  bodyRead : Except Unit Body := .ok .empty
deriving DecidableEq

/-- `readBody`: returns the bytes with a `nil` error; a read failure is
swallowed (`return nil, nil`), indistinguishable from an empty body. -/
def readBody (r : Request) : Body × Option String :=
  match r.bodyRead with
  | .ok b => (b, none)
  | .error _ => (Body.empty, none)

/-! ### Signature verification -/

/-- `IgnoreSignatures`-style outcomes of `ValidateRequestSignature`; `none`
is a `nil` error. -/
inductive ValidateErr
  | missingSig
  | mismatch (actual expected : String)
deriving DecidableEq

/-- The `https://host + RequestURI-or-X-Forwarded-Path` URL whose signature is
recomputed during validation. -/
def reconstructedURL (r : Request) : URL :=
  ⟨"https", r.host, (r.xForwardedPath.getD (r.path, r.query)).1,
    (r.xForwardedPath.getD (r.path, r.query)).2⟩

/-- `ValidateRequestSignature`. -/
def ValidateRequestSignature (mac : String → List Char → String) (appID : String)
    (ignoreSignatures : Bool) (r : Request) : Option ValidateErr :=
  if ignoreSignatures then none
  else if !(endsWithB r.path "handle") then none
  else
    let actual := queryGet r.query "sig"
    if actual == "" then some .missingSig
    else
      let expected := calculateSignature mac appID (reconstructedURL r)
      if expected != actual then some (.mismatch actual expected) else none

/-! ### NCCO actions and script building -/

/-- The NCCO action structs (`Talk`, `Stream`, `Input`, `Record`,
`Conversation`); unset Go fields are the zero values. -/
inductive Action
  | talk (text : String) (bargeIn : Bool)
  | stream (streamURL : List String)
  | input (maxDigits : Int) (submitOnHash : Bool) (timeout : Int)
      (eventURL : List String) (eventMethod : String)
  | record (endOnKey : String) (timeout : Int) (endOnSilence : Int)
      (eventURL : List String) (eventMethod : String)
  | conversation (name : String)
deriving DecidableEq

def gatherTimeout : Int := 30
def recordTimeout : Int := 600

structure Phone where
  type : String
  number : String
deriving DecidableEq

structure NCCO where
  action : String
  name : String
deriving DecidableEq

/-- The outbound call-creation body (`CallRequest`). -/
structure CallRequest where
  to_ : List Phone
  from_ : Phone
  answerURL : List String
  answerMethod : String
  eventURL : List String
  eventMethod : String
  ncco : List NCCO
  ringingTimer : Int
deriving DecidableEq

/-- `flows.ActivatedWait` variants the adapter dispatches on. -/
inductive Hint
  | digits (count : Option Int)
  | audio
  | unknown (t : String)
deriving DecidableEq

inductive AWait
  | msgWait (hint : Hint)
  | dialWait (urn : String) (timeoutSeconds : Option Int)
  | unknownWait (w : String)
deriving DecidableEq

/-- Session events: `IVRCreatedEvent` msgs (text plus attachment URLs); other
event types are skipped by the loop. -/
inductive SEvent
  | ivrCreated (text : String) (attachments : List String)
  | other
deriving DecidableEq

/-- `waitActions[0].(*Input)` type assertion feeding `isWaitInput`. -/
def isInputHead (l : List Action) : Bool :=
  match l.head? with
  | some (.input _ _ _ _ _) => true
  | _ => false

/-- One iteration of the event loop of `responseForSprint`. -/
def renderEvent (isWaitInput : Bool) : SEvent → List Action
  | .ivrCreated text atts =>
    if atts.isEmpty then [.talk text isWaitInput]
    else atts.map (fun a => Action.stream [a])
  | .other => []

def renderEvents (isWaitInput : Bool) (es : List SEvent) : List Action :=
  (es.map (renderEvent isWaitInput)).flatten

/-- `responseForSprint`. `sigEsc` models
`url.QueryEscape(c.calculateSignature(url))` on URL strings; `genUUID` is the
value of the (single) `uuids.New()` call of the taken branch; `createCall`
models `makeRequest(POST, callURL, call)` as response status plus parsed body.
The final JSON marshalling is not modelled: the result is the action list.
(The Go error texts that interpolate a status code are modelled without the
number.) -/
def responseForSprint (sigEsc : String → String) (genUUID : String)
    (createCall : CallRequest → Except String (Nat × Body))
    (channelAddress : String) (connExternalID : String)
    (store : Store) (resumeURL : String)
    (w : Option AWait) (es : List SEvent) : Except String (Store × List Action) :=
  let waitRes : Except String (Store × List Action) :=
    match w with
    | none => .ok (store, [])
    | some (.msgWait hint) =>
      match hint with
      | .digits count =>
        let eventURL := resumeURL ++ "&wait_type=gather"
        let eventURL2 := eventURL ++ "&sig=" ++ sigEsc eventURL
        let maxDigits : Int := match count with | some c => c | none => 20
        .ok (store, [.input maxDigits true gatherTimeout [eventURL2] "POST"])
      | .audio =>
        let recordingUUID := genUUID
        let eventURL := resumeURL ++ "&wait_type=recording_url&recording_uuid=" ++ recordingUUID
        let eventURL2 := eventURL ++ "&sig=" ++ sigEsc eventURL
        let recordAction := Action.record "#" recordTimeout 5 [eventURL2] "POST"
        let inputURL := resumeURL ++ "&wait_type=record&recording_uuid=" ++ recordingUUID
        let inputURL2 := inputURL ++ "&sig=" ++ sigEsc inputURL
        .ok (store, [recordAction, .input 0 true 1 [inputURL2] "POST"])
      | .unknown t => .error ("unable to use wait in IVR call, unknow hint type: " ++ t)
    | some (.dialWait urn timeoutSeconds) =>
      let conversationUUID := genUUID
      let connect := Action.conversation conversationUUID
      let call : CallRequest :=
        { to_ := [⟨"phone", trimLeftPlus urn⟩]
          from_ := ⟨"phone", trimLeftPlus channelAddress⟩
          answerURL := [], answerMethod := "", eventURL := [], eventMethod := ""
          ncco := [⟨"conversation", conversationUUID⟩]
          ringingTimer := match timeoutSeconds with | some t => t | none => 0 }
      match createCall call with
      | .error _ => .error "error trying to start call"
      | .ok (code, rbody) =>
        if code != 201 then .error "received non 200 status for call start"
        else
          match rbody.getString "uuid" with
          | .error _ => .error "error reading call id from transfer"
          | .ok transferUUID =>
            let eventURL := resumeURL ++ "&wait_type=dial"
            .ok (store.setex ("dial_" ++ transferUUID) 3600
              (connExternalID ++ ":" ++ eventURL), [connect])
    | some (.unknownWait s) => .error ("unable to use wait in IVR call, unknow wait type: " ++ s)
  match waitRes with
  | .error e => .error e
  | .ok (store2, waitActions) =>
    let isWaitInput := isInputHead waitActions
    let actions := renderEvents isWaitInput es
    .ok (store2, actions ++ waitActions)

/-! ### `PreprocessStatus` and `PreprocessResume` -/

/-- `callStatusMap` (a Go map; a miss yields the zero `DialStatus`, `""`). -/
def callStatusMap (s : String) : String :=
  if s == "cancelled" then "failed"
  else if s == "answered" then "answered"
  else if s == "busy" then "busy"
  else if s == "timeout" then "no_answer"
  else if s == "failed" then "failed"
  else if s == "rejected" then "no_answer"
  else if s == "canceled" then "failed"
  else ""

/-- The `PUT /v1/calls/<uuid>` transfer request `PreprocessStatus` issues:
method, URL, and the NCCO destination URL in the body. -/
structure TransferRequest where
  method : String
  url : String
  destURL : String
deriving DecidableEq

/-- Outcome of `PreprocessStatus`: the store after the call, the transfer
requests issued, and the response body (`some msg` is
`MakeEmptyResponseBody(msg)`, `none` is `nil, nil`). -/
structure PSResult where
  store : Store
  sent : List TransferRequest
  resp : Option String
deriving DecidableEq

/-- `PreprocessStatus`. `sigOf` models the string-level
`c.calculateSignature`; `net` models the `makeRequest(PUT, ...)` response
status code. -/
def PreprocessStatus (sigOf : String → String) (callURL : String)
    (net : TransferRequest → Nat) (store : Store) (r : Request) :
    Except String PSResult :=
  let body := (readBody r).1
  if body = Body.empty then .ok ⟨store, [], none⟩
  else
    match body.getString "type" with
    | .error .malformedJson => .error "invalid json body"
    | nxTypeRes =>
      let nxType := nxTypeRes.toOption.getD ""
      if nxType == "transfer" then .ok ⟨store, [], some "ignoring conversation callback"⟩
      else
        let legUUID := body.getStringD "uuid"
        let nxStatus := body.getStringD "status"
        if legUUID == "" || nxStatus == "" then .ok ⟨store, [], none⟩
        else
          match store.get ("dial_" ++ legUUID) with
          | none => .ok ⟨store, [], none⟩
          | some dialContinue =>
            match splitColon dialContinue with
            | none => .error "panic: index out of range"
            | some (callUUID, resumeURL) =>
              if nxStatus == "completed" then
                match store.get ("dial_status_" ++ callUUID) with
                | none => .error ("unable to find call status for: " ++ callUUID)
                | some status =>
                  let duration := body.getStringD "duration"
                  let resumeURL2 := resumeURL ++ "&dial_status=" ++ status
                  let resumeURL3 := resumeURL2 ++ "&dial_duration=" ++ duration
                  let resumeURL4 := resumeURL3 ++ "&sig=" ++ sigOf resumeURL3
                  let req : TransferRequest := ⟨"PUT", callURL ++ "/" ++ callUUID, resumeURL4⟩
                  if net req != 204 then
                    .error ("error reconnecting flow for call: " ++ callUUID)
                  else
                    .ok ⟨store, [req],
                      some ("reconnected call: " ++ callUUID ++
                        " to flow with dial status: " ++ status)⟩
              else
                let status := callStatusMap nxStatus
                if status != "" then
                  .ok ⟨store.setex ("dial_status_" ++ callUUID) 300 status, [],
                    some ("updated status for call: " ++ callUUID ++ " to: " ++ status)⟩
                else .ok ⟨store, [], some "ignoring non final status for tranfer leg"⟩

def serializeQuery : Query → String
  | [] => ""
  | [(k, v)] => k ++ "=" ++ v
  | (k, v) :: rest => k ++ "=" ++ v ++ "&" ++ serializeQuery rest

/-- `r.URL.RequestURI()` (escaping not modelled). -/
def requestURI (r : Request) : String :=
  r.path ++ (if r.query.isEmpty then "" else "?" ++ serializeQuery r.query)

/-- Response bodies `PreprocessResume` can produce: a marshalled action list
(the 1-second polling input) or a `_message` JSON body. -/
inductive PRBody
  | actions (acts : List Action)
  | message (msg : String)
deriving DecidableEq

/-- Outcome of `PreprocessResume`: store after the call, the (possibly
mutated) request, and the response body (`none` is `nil, nil`). -/
structure PRResult where
  store : Store
  req : Request
  resp : Option PRBody
deriving DecidableEq

/-- `PreprocessResume`. The `record` branch's `r.URL.RawQuery` overwrite is
modelled by replacing the request query with the single `recording_url`
parameter. -/
def PreprocessResume (store : Store) (r : Request) : Except String PRResult :=
  let waitType := queryGet r.query "wait_type"
  if waitType == "record" then
    let recordingUUID := queryGet r.query "recording_uuid"
    if recordingUUID == "" then .error "record resume without recording_uuid"
    else
      let recordingURL := (store.get ("recording_" ++ recordingUUID)).getD ""
      if recordingURL != "" then
        .ok ⟨store.del ("recording_" ++ recordingUUID),
          { r with query := [("recording_url", recordingURL)] }, none⟩
      else
        let path :=
          match r.xForwardedPath with
          | some p => p.1 ++ (if p.2.isEmpty then "" else "?" ++ serializeQuery p.2)
          | none => requestURI r
        let url := "https://" ++ r.host ++ path
        .ok ⟨store, r, some (.actions [.input 0 true 1 [url] "POST"])⟩
  else if waitType == "recording_url" then
    let recordingUUID := queryGet r.query "recording_uuid"
    if recordingUUID == "" then .error "recording_url resume without recording_uuid"
    else
      match r.bodyRead with
      | .error _ => .error "error reading body from request"
      | .ok body =>
        match body.getString "recording_url" with
        | .error _ => .error "invalid json body"
        | .ok recordingURL =>
          if recordingURL == "" then .error "no recording_url found in request"
          else
            .ok ⟨store.setex ("recording_" ++ recordingUUID) 300 recordingURL, r,
              some (.message ("inserted recording url: " ++ recordingURL ++
                " for uuid: " ++ recordingUUID))⟩
  else .ok ⟨store, r, none⟩

/-! ### Webhook interpreters -/

/-- `models.ConnectionStatus` values the adapter returns. -/
inductive ConnectionStatus
  | wired
  | inProgress
  | completed
  | errored
  | failed
deriving DecidableEq

/-- Body-driven part of `StatusForRequest` (after `readBody` succeeded). -/
def statusFromBody (bb : Body) : ConnectionStatus × Int :=
  match bb.unmarshal with
  | none => (.errored, 0)
  | some fields =>
    let status := (lookupField fields "status").getD ""
    if status == "" then (.inProgress, 0)
    else if status == "started" || status == "ringing" then (.wired, 0)
    else if status == "answered" then (.inProgress, 0)
    else if status == "completed" then
      (.completed, (atoi ((lookupField fields "duration").getD "")).getD 0)
    else if status == "rejected" || status == "busy" || status == "unanswered" ||
        status == "timeout" || status == "failed" || status == "machine" then (.errored, 0)
    else (.failed, 0)

/-- `StatusForRequest`. -/
def StatusForRequest (r : Request) : ConnectionStatus × Int :=
  if queryGet r.form "action" == "resume" then (.inProgress, 0)
  else
    match readBody r with
    | (_, some _) => (.errored, 0)
    | (bb, none) => statusFromBody bb

/-- `ivr.Resume` values: `InputResume{Input, Attachment}` or
`DialResume{Status, Duration}`. -/
inductive Resume
  | input (input : String) (attachment : Option String)
  | dial (status : String) (duration : Int)
deriving DecidableEq

/-- Body-driven part of the `gather`/`record` branch of `ResumeForRequest`
(after `readBody` succeeded). -/
def resumeFromBody (r : Request) (waitType : String) (bb : Body) : Except String Resume :=
  match bb.unmarshal with
  | none => .error "unable to parse ncco request"
  | some fields =>
    if waitType == "gather" then
      if (lookupField fields "timed_out").getD "" == "true" then .ok (.input "" none)
      else .ok (.input ((lookupField fields "dtmf").getD "") none)
    else
      let recordingURL := queryGet r.query "recording_url"
      if recordingURL == "" then .ok (.input "" none)
      else .ok (.input "" (some ("audio:" ++ recordingURL)))

/-- `ResumeForRequest`. -/
def ResumeForRequest (r : Request) : Except String Resume :=
  if queryGet r.form "empty" == "true" then .ok (.input "" none)
  else
    let waitType := queryGet r.form "wait_type"
    if waitType == "gather" || waitType == "record" then
      match readBody r with
      | (_, some _) => .error "error reading request body"
      | (bb, none) => resumeFromBody r waitType bb
    else if waitType == "dial" then
      let status := queryGet r.query "dial_status"
      if status == "" then .error "unable to find dial_status in query url"
      else
        let d := queryGet r.query "dial_duration"
        if d != "" then
          match atoi d with
          | none => .error "non-integer duration in query url"
          | some parsed => .ok (.dial status parsed)
        else .ok (.dial status 0)
    else .error ("unknown wait_type: " ++ waitType)

/-- Body-driven part of `CallIDForRequest` (after `readBody` succeeded). -/
def callIDFromBody (body : Body) : Except String String :=
  match body.getString "uuid" with
  | .error _ => .error "invalid json body"
  | .ok callID =>
    if callID == "" then .error "no uuid set on call"
    else .ok callID

/-- `CallIDForRequest`. -/
def CallIDForRequest (r : Request) : Except String String :=
  match readBody r with
  | (_, some _) => .error "error reading body from request"
  | (body, none) => callIDFromBody body

/-- Tel URN (`urns.NewTelURNForCountry` modelled as the constructor; the
external library's number normalization is out of scope). -/
inductive URN
  | tel (number : String)
deriving DecidableEq

/-- Body-driven part of `URNForRequest` (after `readBody` succeeded). -/
def urnFromBody (body : Body) : Except String URN :=
  let direction0 := body.getStringD "direction"
  let direction := if direction0 == "" then "inbound" else direction0
  let urnKey :=
    if direction == "inbound" then "from"
    else if direction == "outbound" then "to"
    else ""
  match body.getString urnKey with
  | .error _ => .error "invalid json body"
  | .ok urn =>
    if urn == "" then .error "no urn found in body"
    else .ok (.tel ("+" ++ urn))

/-- `URNForRequest`. -/
def URNForRequest (r : Request) : Except String URN :=
  match readBody r with
  | (_, some _) => .error "error reading body from request"
  | (body, none) => urnFromBody body

/-! ### Claims -/

/-- Status strings with an explicit case in `StatusForRequest`. -/
def recognizedStatuses : List String :=
  ["started", "ringing", "answered", "completed", "rejected", "busy", "unanswered",
    "timeout", "failed", "machine"]

/-- C8: `StatusForRequest` maps "ringing" to wired/0, "answered" to
in-progress/0, "completed" with body duration "10" to completed/10, "busy" to
errored/0, and any status string without an explicit case to failed/0; a
request whose form `action` is "resume" short-circuits to in-progress/0
without inspecting the body. -/
theorem C8_status_for_request (r : Request) (fields : Query) :
    (queryGet r.form "action" = "resume" → StatusForRequest r = (.inProgress, 0)) ∧
    (queryGet r.form "action" ≠ "resume" → r.bodyRead = .ok (.json fields) →
      ((lookupField fields "status").getD "" = "ringing" → StatusForRequest r = (.wired, 0)) ∧
      ((lookupField fields "status").getD "" = "answered" →
        StatusForRequest r = (.inProgress, 0)) ∧
      ((lookupField fields "status").getD "" = "completed" →
        (lookupField fields "duration").getD "" = "10" →
        StatusForRequest r = (.completed, 10)) ∧
      ((lookupField fields "status").getD "" = "busy" → StatusForRequest r = (.errored, 0)) ∧
      (∀ s, (lookupField fields "status").getD "" = s → s ≠ "" →
        s ∉ recognizedStatuses → StatusForRequest r = (.failed, 0))) := by
  constructor
  · intro h
    simp [StatusForRequest, h]
  · intro hne hb
    have hact : (queryGet r.form "action" == "resume") = false := beq_eq_false_iff_ne.mpr hne
    have hrb : readBody r = (Body.json fields, none) := by simp [readBody, hb]
    refine ⟨?_, ?_, ?_, ?_, ?_⟩
    · intro hst
      simp [StatusForRequest, hact, hrb, statusFromBody, Body.unmarshal, hst]
    · intro hst
      simp [StatusForRequest, hact, hrb, statusFromBody, Body.unmarshal, hst]
    · intro hst hdur
      simp [StatusForRequest, hact, hrb, statusFromBody, Body.unmarshal, hst, hdur, atoi,
        parseDigitsAux]
    · intro hst
      simp [StatusForRequest, hact, hrb, statusFromBody, Body.unmarshal, hst]
    · intro s hst hs hrec
      simp only [recognizedStatuses, List.mem_cons, List.not_mem_nil, or_false, not_or] at hrec
      obtain ⟨h1, h2, h3, h4, h5, h6, h7, h8, h9, h10⟩ := hrec
      simp [StatusForRequest, hact, hrb, statusFromBody, Body.unmarshal, hst,
        beq_eq_false_iff_ne.mpr hs, beq_eq_false_iff_ne.mpr h1, beq_eq_false_iff_ne.mpr h2,
        beq_eq_false_iff_ne.mpr h3, beq_eq_false_iff_ne.mpr h4, beq_eq_false_iff_ne.mpr h5,
        beq_eq_false_iff_ne.mpr h6, beq_eq_false_iff_ne.mpr h7, beq_eq_false_iff_ne.mpr h8,
        beq_eq_false_iff_ne.mpr h9, beq_eq_false_iff_ne.mpr h10]

theorem C8_witness :
    StatusForRequest { form := [("action", "resume")], bodyRead := .ok .malformed } =
      (.inProgress, 0) ∧
    StatusForRequest { bodyRead := .ok (.json [("status", "ringing")]) } = (.wired, 0) ∧
    StatusForRequest { bodyRead := .ok (.json [("status", "answered")]) } = (.inProgress, 0) ∧
    StatusForRequest { bodyRead := .ok (.json [("status", "completed"), ("duration", "10")]) } =
      (.completed, 10) ∧
    StatusForRequest { bodyRead := .ok (.json [("status", "busy")]) } = (.errored, 0) ∧
    StatusForRequest { bodyRead := .ok (.json [("status", "borked")]) } = (.failed, 0) :=
  ⟨(C8_status_for_request _ []).1 (by decide),
    ((C8_status_for_request _ [("status", "ringing")]).2 (by decide) rfl).1 (by decide),
    ((C8_status_for_request _ [("status", "answered")]).2 (by decide) rfl).2.1 (by decide),
    ((C8_status_for_request _ [("status", "completed"), ("duration", "10")]).2 (by decide)
      rfl).2.2.1 (by decide) (by decide),
    ((C8_status_for_request _ [("status", "busy")]).2 (by decide) rfl).2.2.2.1 (by decide),
    ((C8_status_for_request _ [("status", "borked")]).2 (by decide) rfl).2.2.2.2 "borked"
      (by decide) (by decide) (by decide)⟩

/-- C9: `readBody` always returns a nil error, even when reading the body
failed (the failure is treated as an empty body), so the read-error branches
of `CallIDForRequest`, `URNForRequest`, `ResumeForRequest` and
`StatusForRequest` are dead: each equals its post-read continuation on the
swallowed body. By contrast the `wait_type=recording_url` path of
`PreprocessResume` reads the body directly and fails on a read error. -/
theorem C9_read_body_errors_swallowed :
    (∀ r : Request, (readBody r).2 = none) ∧
    (∀ r : Request, CallIDForRequest r = callIDFromBody (readBody r).1) ∧
    (∀ r : Request, URNForRequest r = urnFromBody (readBody r).1) ∧
    (∀ r : Request, (queryGet r.form "empty" == "true") = false →
      ((queryGet r.form "wait_type" == "gather") ||
        (queryGet r.form "wait_type" == "record")) = true →
      ResumeForRequest r = resumeFromBody r (queryGet r.form "wait_type") (readBody r).1) ∧
    (∀ r : Request, StatusForRequest r =
      if queryGet r.form "action" == "resume" then (.inProgress, 0)
      else statusFromBody (readBody r).1) ∧
    (∀ (store : Store) (r : Request), r.bodyRead = .error () →
      queryGet r.query "wait_type" = "recording_url" →
      queryGet r.query "recording_uuid" ≠ "" →
      PreprocessResume store r = .error "error reading body from request") := by
  refine ⟨?_, ?_, ?_, ?_, ?_, ?_⟩
  · intro r
    rcases hb : r.bodyRead with e | b <;> simp [readBody, hb]
  · intro r
    rcases hb : r.bodyRead with e | b <;> simp [CallIDForRequest, readBody, hb]
  · intro r
    rcases hb : r.bodyRead with e | b <;> simp [URNForRequest, readBody, hb]
  · intro r hemp hwt
    rcases hb : r.bodyRead with e | b <;>
      simp [ResumeForRequest, readBody, hb, hemp, hwt]
  · intro r
    rcases hb : r.bodyRead with e | b <;>
      simp [StatusForRequest, readBody, hb]
  · intro store r hb hwt huuid
    have hwt2 : (queryGet r.query "wait_type" == "record") = false := by
      rw [hwt]; decide
    simp [PreprocessResume, hwt, hwt2, hb, beq_eq_false_iff_ne.mpr huuid]

theorem C9_witness :
    (readBody { bodyRead := .error () }).2 = none ∧
    CallIDForRequest { bodyRead := .error () } =
      callIDFromBody (readBody { bodyRead := .error () }).1 ∧
    ResumeForRequest { form := [("wait_type", "gather")], bodyRead := .error () } =
      resumeFromBody { form := [("wait_type", "gather")], bodyRead := .error () } "gather"
        (readBody { form := [("wait_type", "gather")], bodyRead := .error () }).1 ∧
    PreprocessResume []
      { query := [("wait_type", "recording_url"), ("recording_uuid", "u")],
        bodyRead := .error () } = .error "error reading body from request" :=
  ⟨C9_read_body_errors_swallowed.1 _,
    C9_read_body_errors_swallowed.2.1 _,
    C9_read_body_errors_swallowed.2.2.2.1 _ (by decide) (by decide),
    C9_read_body_errors_swallowed.2.2.2.2.2 [] _ rfl (by decide) (by decide)⟩

/-- C10 counterexample: with direction "sideways" (neither inbound nor
outbound) and a body carrying an empty-string field name, `URNForRequest`
returns that field's value as a tel URN instead of an error — the claim's
"for any other direction value it returns an error" is false. -/
theorem C10_cex :
    URNForRequest { bodyRead := .ok (.json [("direction", "sideways"), ("", "15551234")]) } =
      .ok (.tel "+15551234") := by decide

/-- C10 (amended): `URNForRequest` reads the URN from "from" when direction is
missing, empty or "inbound", and from "to" when "outbound"; any other
direction makes it look up the empty-string field name, which is an "invalid
json body" error for bodies without such a field (and yields that field's
value as the URN otherwise); a missing URN field is an invalid-body error and
an empty URN value is a "no urn" error; on success the URN is the body value
prefixed with "+". -/
theorem C10_urn_for_request (r : Request) (fields : Query)
    (hb : r.bodyRead = .ok (.json fields)) :
    ((Body.json fields).getStringD "direction" = "" ∨
        (Body.json fields).getStringD "direction" = "inbound" →
      (lookupField fields "from" = none → URNForRequest r = .error "invalid json body") ∧
      (lookupField fields "from" = some "" → URNForRequest r = .error "no urn found in body") ∧
      (∀ v, lookupField fields "from" = some v → v ≠ "" →
        URNForRequest r = .ok (.tel ("+" ++ v)))) ∧
    ((Body.json fields).getStringD "direction" = "outbound" →
      (lookupField fields "to" = none → URNForRequest r = .error "invalid json body") ∧
      (lookupField fields "to" = some "" → URNForRequest r = .error "no urn found in body") ∧
      (∀ v, lookupField fields "to" = some v → v ≠ "" →
        URNForRequest r = .ok (.tel ("+" ++ v)))) ∧
    (∀ d, (Body.json fields).getStringD "direction" = d → d ≠ "" → d ≠ "inbound" →
      d ≠ "outbound" →
      (lookupField fields "" = none → URNForRequest r = .error "invalid json body") ∧
      (∀ v, lookupField fields "" = some v → v ≠ "" →
        URNForRequest r = .ok (.tel ("+" ++ v)))) := by
  have hrb : readBody r = (Body.json fields, none) := by simp [readBody, hb]
  refine ⟨?_, ?_, ?_⟩
  · intro hdir
    have hkey : ∀ b : Except String URN,
        urnFromBody (Body.json fields) = b →
        (match (Body.json fields).getString "from" with
          | .error _ => Except.error "invalid json body"
          | .ok urn =>
            if urn == "" then Except.error "no urn found in body"
            else Except.ok (URN.tel ("+" ++ urn))) = b := by
      intro b hbeq
      rw [← hbeq]
      rcases hdir with hdir | hdir <;>
        simp [urnFromBody, hdir]
    refine ⟨?_, ?_, ?_⟩
    · intro hl
      have : (Body.json fields).getString "from" = .error .keyNotFound := by
        simp [Body.getString, hl]
      simp only [URNForRequest, hrb]
      rw [← hkey _ rfl, this]
    · intro hl
      have : (Body.json fields).getString "from" = .ok "" := by
        simp [Body.getString, hl]
      simp only [URNForRequest, hrb]
      rw [← hkey _ rfl, this]
      simp
    · intro v hl hv
      have : (Body.json fields).getString "from" = .ok v := by
        simp [Body.getString, hl]
      simp only [URNForRequest, hrb]
      rw [← hkey _ rfl, this]
      simp [beq_eq_false_iff_ne.mpr hv]
  · intro hdir
    have hne : ((Body.json fields).getStringD "direction" == "") = false := by
      rw [hdir]; decide
    refine ⟨?_, ?_, ?_⟩
    · intro hl
      have : (Body.json fields).getString "to" = .error .keyNotFound := by
        simp [Body.getString, hl]
      simp [URNForRequest, hrb, urnFromBody, hne, hdir, this]
    · intro hl
      have : (Body.json fields).getString "to" = .ok "" := by
        simp [Body.getString, hl]
      simp [URNForRequest, hrb, urnFromBody, hne, hdir, this]
    · intro v hl hv
      have : (Body.json fields).getString "to" = .ok v := by
        simp [Body.getString, hl]
      simp [URNForRequest, hrb, urnFromBody, hne, hdir, this, beq_eq_false_iff_ne.mpr hv]
  · intro d hdir hd hdin hdout
    have hkeyv : urnFromBody (Body.json fields) =
        (match (Body.json fields).getString "" with
          | .error _ => Except.error "invalid json body"
          | .ok urn =>
            if urn == "" then Except.error "no urn found in body"
            else Except.ok (URN.tel ("+" ++ urn))) := by
      simp only [urnFromBody, hdir, beq_eq_false_iff_ne.mpr hd, Bool.false_eq_true, if_false,
        beq_eq_false_iff_ne.mpr hdin, beq_eq_false_iff_ne.mpr hdout]
    refine ⟨?_, ?_⟩
    · intro hl
      have hgs : (Body.json fields).getString "" = .error .keyNotFound := by
        simp [Body.getString, hl]
      simp [URNForRequest, hrb, hkeyv, hgs]
    · intro v hl hv
      have hgs : (Body.json fields).getString "" = .ok v := by
        simp [Body.getString, hl]
      simp [URNForRequest, hrb, hkeyv, hgs, beq_eq_false_iff_ne.mpr hv]

theorem C10_witness :
    URNForRequest { bodyRead := .ok (.json [("from", "15551234")]) } =
      .ok (.tel "+15551234") ∧
    URNForRequest { bodyRead := .ok (.json [("direction", "outbound"), ("to", "447700900")]) } =
      .ok (.tel "+447700900") ∧
    URNForRequest { bodyRead := .ok (.json [("direction", "weird")]) } =
      .error "invalid json body" ∧
    URNForRequest { bodyRead := .ok (.json [("direction", "inbound"), ("from", "")]) } =
      .error "no urn found in body" :=
  ⟨((C10_urn_for_request _ [("from", "15551234")] rfl).1 (Or.inl (by decide))).2.2
      "15551234" (by decide) (by decide),
    ((C10_urn_for_request _ [("direction", "outbound"), ("to", "447700900")] rfl).2.1
      (by decide)).2.2 "447700900" (by decide) (by decide),
    ((C10_urn_for_request _ [("direction", "weird")] rfl).2.2 "weird" (by decide) (by decide)
      (by decide) (by decide)).1 (by decide),
    ((C10_urn_for_request _ [("direction", "inbound"), ("from", "")] rfl).1
      (Or.inr (by decide))).2.1 (by decide)⟩

theorem store_getEntry_setex (s : Store) (k : String) (ttl : Nat) (v : String) :
    (s.setex k ttl v).getEntry k = some (v, ttl) := by
  simp [Store.getEntry, Store.setex, List.find?_cons_of_pos]

/-- Reduction of `PreprocessStatus` under a live transfer entry for the
callback's leg: the shared spine of C2 and C3. -/
theorem PreprocessStatus_reduce (sigOf : String → String) (callURL : String)
    (net : TransferRequest → Nat) (store : Store) (r : Request) (fields : Query)
    (leg st dc orig rurl : String)
    (hb : r.bodyRead = .ok (.json fields))
    (htype : (Body.json fields).getStringD "type" ≠ "transfer")
    (hleg : (Body.json fields).getStringD "uuid" = leg) (hlegne : leg ≠ "")
    (hst : (Body.json fields).getStringD "status" = st) (hstne : st ≠ "")
    (hget : store.get ("dial_" ++ leg) = some dc)
    (hsplit : splitColon dc = some (orig, rurl)) :
    PreprocessStatus sigOf callURL net store r =
      (if st == "completed" then
        match store.get ("dial_status_" ++ orig) with
        | none => .error ("unable to find call status for: " ++ orig)
        | some status =>
          let duration := (Body.json fields).getStringD "duration"
          let resumeURL3 := rurl ++ "&dial_status=" ++ status ++ "&dial_duration=" ++ duration
          let req : TransferRequest :=
            ⟨"PUT", callURL ++ "/" ++ orig, resumeURL3 ++ "&sig=" ++ sigOf resumeURL3⟩
          if net req != 204 then .error ("error reconnecting flow for call: " ++ orig)
          else
            .ok ⟨store, [req],
              some ("reconnected call: " ++ orig ++ " to flow with dial status: " ++ status)⟩
      else
        if callStatusMap st != "" then
          .ok ⟨store.setex ("dial_status_" ++ orig) 300 (callStatusMap st), [],
            some ("updated status for call: " ++ orig ++ " to: " ++ callStatusMap st)⟩
        else .ok ⟨store, [], some "ignoring non final status for tranfer leg"⟩) := by
  have hbody : (readBody r).1 = Body.json fields := by simp [readBody, hb]
  have hlegb : (leg == "") = false := beq_eq_false_iff_ne.mpr hlegne
  have hstb : (st == "") = false := beq_eq_false_iff_ne.mpr hstne
  rcases htl : lookupField fields "type" with _ | t
  · have hgt : (Body.json fields).getString "type" = .error .keyNotFound := by
      simp [Body.getString, htl]
    have htr : (("" : String) == "transfer") = false := by decide
    simp only [PreprocessStatus, hbody, hgt, hleg, hst, hlegb, hstb, hget, hsplit,
      Except.toOption, Option.getD, htr, Bool.false_eq_true, if_false, Bool.or_self,
      reduceCtorEq, String.append_assoc]
  · have hgt : (Body.json fields).getString "type" = .ok t := by
      simp [Body.getString, htl]
    have htv : (Body.json fields).getStringD "type" = t := by
      simp [Body.getStringD, hgt, Except.toOption]
    have htr : (t == "transfer") = false := beq_eq_false_iff_ne.mpr (htv ▸ htype)
    simp only [PreprocessStatus, hbody, hgt, hleg, hst, hlegb, hstb, hget, hsplit,
      Except.toOption, Option.getD, htr, Bool.false_eq_true, if_false, Bool.or_self,
      reduceCtorEq, String.append_assoc]

/-- C2 counterexample: transferred leg "L", transfer entry
`dial_L -> "C:u"` (original call "C"), status callback "answered". The status
entry is stored under `dial_status_C` — the original call's ID — and no entry
exists under the transferred leg's own key `dial_status_L`, contradicting the
claim's "keyed by the transferred leg's own call ID". -/
theorem C2_cex :
    (PreprocessStatus (fun s => s) "cu" (fun _ => 204) [("dial_L", "C:u", 3600)]
        { bodyRead := .ok (.json [("uuid", "L"), ("status", "answered")]) }).toOption.map
      (fun res => (res.store.get "dial_status_L", res.store.getEntry "dial_status_C")) =
      some (none, some ("answered", 300)) := by decide

/-- C2 (amended): a non-"completed" status callback for a transferred leg with
a live transfer entry whose status maps through `callStatusMap` is stored as a
status entry with TTL 300 keyed by the ORIGINAL call's external ID (the first
colon-separated component of the transfer entry's value), not by the
transferred leg's own call ID. -/
theorem C2_intermediate_status (sigOf : String → String) (callURL : String)
    (net : TransferRequest → Nat) (store : Store) (r : Request) (fields : Query)
    (leg st dc orig rurl : String)
    (hb : r.bodyRead = .ok (.json fields))
    (htype : (Body.json fields).getStringD "type" ≠ "transfer")
    (hleg : (Body.json fields).getStringD "uuid" = leg) (hlegne : leg ≠ "")
    (hst : (Body.json fields).getStringD "status" = st) (hstne : st ≠ "")
    (hstc : st ≠ "completed") (hmap : callStatusMap st ≠ "")
    (hget : store.get ("dial_" ++ leg) = some dc)
    (hsplit : splitColon dc = some (orig, rurl)) :
    PreprocessStatus sigOf callURL net store r =
      .ok ⟨store.setex ("dial_status_" ++ orig) 300 (callStatusMap st), [],
        some ("updated status for call: " ++ orig ++ " to: " ++ callStatusMap st)⟩ ∧
    (store.setex ("dial_status_" ++ orig) 300 (callStatusMap st)).getEntry
        ("dial_status_" ++ orig) = some (callStatusMap st, 300) := by
  constructor
  · rw [PreprocessStatus_reduce sigOf callURL net store r fields leg st dc orig rurl
      hb htype hleg hlegne hst hstne hget hsplit]
    simp [beq_eq_false_iff_ne.mpr hstc, bne, beq_eq_false_iff_ne.mpr hmap]
  · exact store_getEntry_setex store ("dial_status_" ++ orig) 300 (callStatusMap st)

theorem C2_witness :
    PreprocessStatus (fun s => s) "cu" (fun _ => 204) [("dial_L", "C:u", 3600)]
        { bodyRead := .ok (.json [("uuid", "L"), ("status", "busy")]) } =
      .ok ⟨[("dial_status_C", "busy", 300), ("dial_L", "C:u", 3600)], [],
        some "updated status for call: C to: busy"⟩ ∧
    Store.setex [("dial_L", "C:u", 3600)] "dial_status_C" 300 "busy" =
      [("dial_status_C", "busy", 300), ("dial_L", "C:u", 3600)] :=
  ⟨(C2_intermediate_status (fun s => s) "cu" (fun _ => 204) [("dial_L", "C:u", 3600)]
      { bodyRead := .ok (.json [("uuid", "L"), ("status", "busy")]) }
      [("uuid", "L"), ("status", "busy")] "L" "busy" "C:u" "C" "u"
      rfl (by decide) (by decide) (by decide) (by decide) (by decide) (by decide)
      (by decide) (by decide) (by decide)).1,
    rfl⟩

/-- C3: on a "completed" callback for a transferred leg with a live transfer
entry, a missing status entry is an error; otherwise the duration is taken
from the body, `dial_status`, `dial_duration` and a fresh `sig` are appended
to the stored resumption URL, and a PUT transfer is issued against the
original call's ID; any status code other than 204 is an error. -/
theorem C3_completed_transfer (sigOf : String → String) (callURL : String)
    (net : TransferRequest → Nat) (store : Store) (r : Request) (fields : Query)
    (leg d dc orig rurl : String)
    (hb : r.bodyRead = .ok (.json fields))
    (htype : (Body.json fields).getStringD "type" ≠ "transfer")
    (hleg : (Body.json fields).getStringD "uuid" = leg) (hlegne : leg ≠ "")
    (hst : (Body.json fields).getStringD "status" = "completed")
    (hdur : (Body.json fields).getStringD "duration" = d)
    (hget : store.get ("dial_" ++ leg) = some dc)
    (hsplit : splitColon dc = some (orig, rurl)) :
    (store.get ("dial_status_" ++ orig) = none →
      PreprocessStatus sigOf callURL net store r =
        .error ("unable to find call status for: " ++ orig)) ∧
    (∀ st, store.get ("dial_status_" ++ orig) = some st →
      (net ⟨"PUT", callURL ++ "/" ++ orig,
          rurl ++ "&dial_status=" ++ st ++ "&dial_duration=" ++ d ++ "&sig=" ++
            sigOf (rurl ++ "&dial_status=" ++ st ++ "&dial_duration=" ++ d)⟩ = 204 →
        PreprocessStatus sigOf callURL net store r =
          .ok ⟨store,
            [⟨"PUT", callURL ++ "/" ++ orig,
              rurl ++ "&dial_status=" ++ st ++ "&dial_duration=" ++ d ++ "&sig=" ++
                sigOf (rurl ++ "&dial_status=" ++ st ++ "&dial_duration=" ++ d)⟩],
            some ("reconnected call: " ++ orig ++ " to flow with dial status: " ++ st)⟩) ∧
      (net ⟨"PUT", callURL ++ "/" ++ orig,
          rurl ++ "&dial_status=" ++ st ++ "&dial_duration=" ++ d ++ "&sig=" ++
            sigOf (rurl ++ "&dial_status=" ++ st ++ "&dial_duration=" ++ d)⟩ ≠ 204 →
        PreprocessStatus sigOf callURL net store r =
          .error ("error reconnecting flow for call: " ++ orig))) := by
  have hred := PreprocessStatus_reduce sigOf callURL net store r fields leg "completed" dc
    orig rurl hb htype hleg hlegne hst (by decide) hget hsplit
  rw [hred]
  simp only [beq_self_eq_true, if_true]
  constructor
  · intro hnone
    simp only [hnone]
  · intro st hsome
    simp only [hsome, hdur]
    constructor
    · intro hnet
      rw [hnet]
      simp
    · intro hnet
      have hb2 : (net ⟨"PUT", callURL ++ "/" ++ orig,
          rurl ++ "&dial_status=" ++ st ++ "&dial_duration=" ++ d ++ "&sig=" ++
            sigOf (rurl ++ "&dial_status=" ++ st ++ "&dial_duration=" ++ d)⟩ != 204) = true := by
        simpa [bne_iff_ne] using hnet
      rw [hb2]
      simp

theorem C3_witness :
    PreprocessStatus (fun s => "SIG(" ++ s ++ ")") "cu" (fun _ => 204)
        [("dial_L", "C:u", 3600)]
        { bodyRead := .ok (.json [("uuid", "L"), ("status", "completed"),
            ("duration", "42")]) } =
      .error "unable to find call status for: C" ∧
    PreprocessStatus (fun s => "SIG(" ++ s ++ ")") "cu" (fun _ => 204)
        [("dial_status_C", "answered", 300), ("dial_L", "C:u", 3600)]
        { bodyRead := .ok (.json [("uuid", "L"), ("status", "completed"),
            ("duration", "42")]) } =
      .ok ⟨[("dial_status_C", "answered", 300), ("dial_L", "C:u", 3600)],
        [⟨"PUT", "cu/C",
          "u&dial_status=answered&dial_duration=42&sig=SIG(u&dial_status=answered&dial_duration=42)"⟩],
        some "reconnected call: C to flow with dial status: answered"⟩ ∧
    PreprocessStatus (fun s => "SIG(" ++ s ++ ")") "cu" (fun _ => 500)
        [("dial_status_C", "answered", 300), ("dial_L", "C:u", 3600)]
        { bodyRead := .ok (.json [("uuid", "L"), ("status", "completed"),
            ("duration", "42")]) } =
      .error "error reconnecting flow for call: C" :=
  ⟨(C3_completed_transfer (fun s => "SIG(" ++ s ++ ")") "cu" (fun _ => 204)
      [("dial_L", "C:u", 3600)]
      { bodyRead := .ok (.json [("uuid", "L"), ("status", "completed"), ("duration", "42")]) }
      [("uuid", "L"), ("status", "completed"), ("duration", "42")]
      "L" "42" "C:u" "C" "u" rfl (by decide) (by decide) (by decide) (by decide) (by decide)
      (by decide) (by decide)).1 (by decide),
    (((C3_completed_transfer (fun s => "SIG(" ++ s ++ ")") "cu" (fun _ => 204)
      [("dial_status_C", "answered", 300), ("dial_L", "C:u", 3600)]
      { bodyRead := .ok (.json [("uuid", "L"), ("status", "completed"), ("duration", "42")]) }
      [("uuid", "L"), ("status", "completed"), ("duration", "42")]
      "L" "42" "C:u" "C" "u" rfl (by decide) (by decide) (by decide) (by decide) (by decide)
      (by decide) (by decide)).2 "answered" (by decide)).1 (by decide)),
    (((C3_completed_transfer (fun s => "SIG(" ++ s ++ ")") "cu" (fun _ => 500)
      [("dial_status_C", "answered", 300), ("dial_L", "C:u", 3600)]
      { bodyRead := .ok (.json [("uuid", "L"), ("status", "completed"), ("duration", "42")]) }
      [("uuid", "L"), ("status", "completed"), ("duration", "42")]
      "L" "42" "C:u" "C" "u" rfl (by decide) (by decide) (by decide) (by decide) (by decide)
      (by decide) (by decide)).2 "answered" (by decide)).2 (by decide))⟩

/-- C4: for an audio-record wait, `responseForSprint` emits exactly two wait
actions after the event actions, in order: a "record" action (endOnKey "#",
timeOut 600, endOnSilence 5) and then an "input" action with a 1-second
timeout; both callback URLs carry the same fresh recording UUID, tagged
`wait_type=recording_url` and `wait_type=record` respectively, and each URL is
independently signed. -/
theorem C4_audio_record_wait (sigEsc : String → String) (genUUID : String)
    (createCall : CallRequest → Except String (Nat × Body))
    (channelAddress connExternalID : String) (store : Store) (resumeURL : String)
    (es : List SEvent) :
    responseForSprint sigEsc genUUID createCall channelAddress connExternalID store resumeURL
      (some (.msgWait .audio)) es =
    .ok (store, renderEvents false es ++
      [.record "#" 600 5
        [resumeURL ++ "&wait_type=recording_url&recording_uuid=" ++ genUUID ++ "&sig=" ++
          sigEsc (resumeURL ++ "&wait_type=recording_url&recording_uuid=" ++ genUUID)] "POST",
       .input 0 true 1
        [resumeURL ++ "&wait_type=record&recording_uuid=" ++ genUUID ++ "&sig=" ++
          sigEsc (resumeURL ++ "&wait_type=record&recording_uuid=" ++ genUUID)] "POST"]) := rfl

/-- C7: whenever `responseForSprint` succeeds, the action list is the
event-derived actions (in engine order) followed by the wait actions (in
generation order); a no-attachment "message spoken" event renders as one
"talk" action whose barge-in flag is set exactly when the first wait action is
an input (which happens exactly for a digit-gather wait), and an event with
attachments renders as one "stream" action per attachment in order. -/
theorem C7_events_then_waits (sigEsc : String → String) (genUUID : String)
    (createCall : CallRequest → Except String (Nat × Body))
    (channelAddress connExternalID : String) (store : Store) (resumeURL : String)
    (w : Option AWait) (es : List SEvent) (store2 : Store) (acts : List Action)
    (h : responseForSprint sigEsc genUUID createCall channelAddress connExternalID store
      resumeURL w es = .ok (store2, acts)) :
    ∃ waitActions : List Action,
      acts = renderEvents (isInputHead waitActions) es ++ waitActions ∧
      (isInputHead waitActions = true ↔ ∃ c, w = some (.msgWait (.digits c))) ∧
      (∀ t, renderEvent (isInputHead waitActions) (.ivrCreated t []) =
        [.talk t (isInputHead waitActions)]) ∧
      (∀ t a rest, renderEvent (isInputHead waitActions) (.ivrCreated t (a :: rest)) =
        (a :: rest).map (fun u => Action.stream [u])) := by
  rcases w with _ | wait
  · simp only [responseForSprint, Except.ok.injEq, Prod.mk.injEq] at h
    exact ⟨[], h.2.symm, by simp [isInputHead], fun t => rfl, fun t a rest => rfl⟩
  · rcases wait with hint | ⟨urn, tsec⟩ | uw
    · rcases hint with count | _ | t
      · rcases count with _ | c
        · simp only [responseForSprint, Except.ok.injEq, Prod.mk.injEq] at h
          exact ⟨_, h.2.symm, iff_of_true rfl ⟨none, rfl⟩, fun t => rfl, fun t a rest => rfl⟩
        · simp only [responseForSprint, Except.ok.injEq, Prod.mk.injEq] at h
          exact ⟨_, h.2.symm, iff_of_true rfl ⟨some c, rfl⟩, fun t => rfl,
            fun t a rest => rfl⟩
      · simp only [responseForSprint, Except.ok.injEq, Prod.mk.injEq] at h
        exact ⟨_, h.2.symm,
          iff_of_false (fun hh => Bool.false_ne_true hh)
            (by rintro ⟨c, hc⟩; simp at hc),
          fun t => rfl, fun t a rest => rfl⟩
      · exfalso
        simp [responseForSprint] at h
    · rcases tsec with _ | tval
      · simp only [responseForSprint] at h
        rcases hcall : createCall (CallRequest.mk [⟨"phone", trimLeftPlus urn⟩]
            ⟨"phone", trimLeftPlus channelAddress⟩ [] "" [] "" [⟨"conversation", genUUID⟩]
            0) with e | ⟨code, rbody⟩ <;> rw [hcall] at h
        · exfalso
          simp at h
        · by_cases hcode : (code != 201) = true
          · exfalso
            simp [hcode] at h
          · have hcode2 : (code != 201) = false := by simpa using hcode
            rcases hgs : rbody.getString "uuid" with je | transferUUID
            · exfalso
              simp [hcode2, hgs] at h
            · simp only [hcode2, hgs, Bool.false_eq_true, if_false,
                Except.ok.injEq, Prod.mk.injEq] at h
              exact ⟨_, h.2.symm,
                iff_of_false (fun hh => Bool.false_ne_true hh)
                  (by rintro ⟨c, hc⟩; simp at hc),
                fun t => rfl, fun t a rest => rfl⟩
      · simp only [responseForSprint] at h
        rcases hcall : createCall (CallRequest.mk [⟨"phone", trimLeftPlus urn⟩]
            ⟨"phone", trimLeftPlus channelAddress⟩ [] "" [] "" [⟨"conversation", genUUID⟩]
            tval) with e | ⟨code, rbody⟩ <;> rw [hcall] at h
        · exfalso
          simp at h
        · by_cases hcode : (code != 201) = true
          · exfalso
            simp [hcode] at h
          · have hcode2 : (code != 201) = false := by simpa using hcode
            rcases hgs : rbody.getString "uuid" with je | transferUUID
            · exfalso
              simp [hcode2, hgs] at h
            · simp only [hcode2, hgs, Bool.false_eq_true, if_false,
                Except.ok.injEq, Prod.mk.injEq] at h
              exact ⟨_, h.2.symm,
                iff_of_false (fun hh => Bool.false_ne_true hh)
                  (by rintro ⟨c, hc⟩; simp at hc),
                fun t => rfl, fun t a rest => rfl⟩
    · exfalso
      simp [responseForSprint] at h

theorem C7_witness :
    ∃ waitActions : List Action,
      ([Action.talk "hello" true,
        .input 4 true 30 ["R&wait_type=gather&sig=R&wait_type=gather"] "POST"] : List Action) =
          renderEvents (isInputHead waitActions) [.ivrCreated "hello" []] ++ waitActions ∧
      (isInputHead waitActions = true ↔
        ∃ c, (some (.msgWait (.digits (some 4))) : Option AWait) =
          some (.msgWait (.digits c))) ∧
      (∀ t, renderEvent (isInputHead waitActions) (.ivrCreated t []) =
        [.talk t (isInputHead waitActions)]) ∧
      (∀ t a rest, renderEvent (isInputHead waitActions) (.ivrCreated t (a :: rest)) =
        (a :: rest).map (fun u => Action.stream [u])) :=
  C7_events_then_waits (fun s => s) "u" (fun _ => .ok (201, .json [])) "c" "x" [] "R"
    (some (.msgWait (.digits (some 4)))) [.ivrCreated "hello" []] []
    [Action.talk "hello" true,
      .input 4 true 30 ["R&wait_type=gather&sig=R&wait_type=gather"] "POST"] rfl

/-- Concrete injective stand-in for base64(HMAC-SHA1), used to instantiate
witnesses and counterexamples (the MAC itself is uninterpreted in the model). -/
def macMk (key : String) (buf : List Char) : String := key ++ String.mk buf

theorem macMk_inj (key : String) : Function.Injective (macMk key) := by
  intro a b h
  have h2 : key.data ++ a = key.data ++ b := congrArg String.data h
  exact List.append_cancel_left h2

/-- Reduction of `ValidateRequestSignature` on a handle-path request with no
proxy header. -/
theorem validate_reduce (mac : String → List Char → String) (appID host path : String)
    (q : Query) (hpath : endsWithB path "handle" = true) :
    ValidateRequestSignature mac appID false { host := host, path := path, query := q } =
      (if queryGet q "sig" == "" then some .missingSig
       else if calculateSignature mac appID ⟨"https", host, path, q⟩ != queryGet q "sig" then
         some (.mismatch (queryGet q "sig")
           (calculateSignature mac appID ⟨"https", host, path, q⟩))
       else none) := by
  simp [ValidateRequestSignature, reconstructedURL, hpath]

/-- C1: signing a https URL whose path ends in "handle" (and which has no
prior `sig` parameter) by appending `sig=calculateSignature(url)` makes
`ValidateRequestSignature` succeed on the request reconstructed with the same
scheme, host, path and query; altering any single query-parameter value after
signing makes it return a signature-mismatch error. The MAC is assumed
injective (collision-free) and nonempty on the signed URL, as base64 HMAC
output is. -/
theorem C1_sign_verify_roundtrip (mac : String → List Char → String)
    (hinj : ∀ key, Function.Injective (mac key))
    (appID host path : String) (q : Query)
    (hpath : endsWithB path "handle" = true)
    (hq : "sig" ∉ q.map Prod.fst)
    (hne : calculateSignature mac appID ⟨"https", host, path, q⟩ ≠ "") :
    (ValidateRequestSignature mac appID false
      { host := host, path := path,
        query := q ++ [("sig", calculateSignature mac appID ⟨"https", host, path, q⟩)] } =
      none) ∧
    (∀ A B k v v2, q = A ++ (k, v) :: B → v ≠ v2 →
      ValidateRequestSignature mac appID false
        { host := host, path := path,
          query := (A ++ (k, v2) :: B) ++
            [("sig", calculateSignature mac appID ⟨"https", host, path, q⟩)] } =
        some (.mismatch (calculateSignature mac appID ⟨"https", host, path, q⟩)
          (calculateSignature mac appID ⟨"https", host, path, A ++ (k, v2) :: B⟩))) := by
  constructor
  · have hget : queryGet
        (q ++ [("sig", calculateSignature mac appID ⟨"https", host, path, q⟩)]) "sig" =
        calculateSignature mac appID ⟨"https", host, path, q⟩ :=
      queryGet_sig_append _ hq
    rw [validate_reduce mac appID host path _ hpath, hget]
    have hcanon : calculateSignature mac appID ⟨"https", host, path,
        q ++ [("sig", calculateSignature mac appID ⟨"https", host, path, q⟩)]⟩ =
        calculateSignature mac appID ⟨"https", host, path, q⟩ :=
      congrArg (mac appID) (canonical_strip_sig _ _ _ _ _)
    rw [hcanon, beq_eq_false_iff_ne.mpr hne, bne_self_eq_false]
    simp
  · intro A B k v v2 hqd hv
    have hkeys : (A ++ (k, v2) :: B).map Prod.fst = q.map Prod.fst := by
      rw [hqd]
      simp
    have hq2 : "sig" ∉ (A ++ (k, v2) :: B).map Prod.fst := by
      rw [hkeys]
      exact hq
    have hget : queryGet ((A ++ (k, v2) :: B) ++
        [("sig", calculateSignature mac appID ⟨"https", host, path, q⟩)]) "sig" =
        calculateSignature mac appID ⟨"https", host, path, q⟩ :=
      queryGet_sig_append _ hq2
    have hk : k ≠ "sig" := by
      intro hEq
      apply hq
      rw [hqd, hEq]
      simp
    have hSne : calculateSignature mac appID ⟨"https", host, path, q⟩ ≠
        calculateSignature mac appID ⟨"https", host, path, A ++ (k, v2) :: B⟩ := by
      rw [hqd]
      intro hEq
      exact canonical_ne_alter "https" host path k v v2 A B hk hv (hinj appID hEq)
    have hstrip : calculateSignature mac appID ⟨"https", host, path,
        (A ++ (k, v2) :: B) ++
          [("sig", calculateSignature mac appID ⟨"https", host, path, q⟩)]⟩ =
        calculateSignature mac appID ⟨"https", host, path, A ++ (k, v2) :: B⟩ :=
      congrArg (mac appID) (canonical_strip_sig _ _ _ _ _)
    rw [validate_reduce mac appID host path _ hpath, hget, hstrip]
    rw [beq_eq_false_iff_ne.mpr hne, bne_iff_ne.mpr (Ne.symm hSne)]
    simp

theorem C1_witness :
    ValidateRequestSignature macMk "app" false
      { host := "h", path := "/handle",
        query := [("a", "1"),
          ("sig", calculateSignature macMk "app" ⟨"https", "h", "/handle", [("a", "1")]⟩)] } =
      none ∧
    ValidateRequestSignature macMk "app" false
      { host := "h", path := "/handle",
        query := [("a", "2"),
          ("sig", calculateSignature macMk "app" ⟨"https", "h", "/handle", [("a", "1")]⟩)] } =
      some (.mismatch (calculateSignature macMk "app" ⟨"https", "h", "/handle", [("a", "1")]⟩)
        (calculateSignature macMk "app" ⟨"https", "h", "/handle", [("a", "2")]⟩)) :=
  ⟨(C1_sign_verify_roundtrip macMk (fun key => macMk_inj key) "app" "h" "/handle"
      [("a", "1")] (by decide) (by decide) (by decide)).1,
    (C1_sign_verify_roundtrip macMk (fun key => macMk_inj key) "app" "h" "/handle"
      [("a", "1")] (by decide) (by decide) (by decide)).2 [] [] "a" "1" "2" rfl
      (by decide)⟩

/-- C5 counterexample: two URLs differing only in the order of two values of
the same key produce different signatures (values are concatenated in
occurrence order), refuting unconditional order-independence. -/
theorem C5_cex :
    calculateSignature macMk "app" ⟨"https", "h", "/handle", [("a", "1"), ("a", "2")]⟩ ≠
      calculateSignature macMk "app" ⟨"https", "h", "/handle", [("a", "2"), ("a", "1")]⟩ := by
  decide

/-- C5 (amended): `calculateSignature` is a pure function of scheme, host,
path and the per-key value lists taken in sorted key order — any reordering of
parameters that preserves each key's value order (in particular any reordering
when no key repeats) gives the same signature; the `sig` parameter is excluded
from the digest input; the digest is the keyed MAC of the canonical buffer. -/
theorem C5_canonicalization (mac : String → List Char → String)
    (appID scheme host path : String) (q q2 : Query) :
    ((∀ k, valuesOf q k = valuesOf q2 k) →
      calculateSignature mac appID ⟨scheme, host, path, q⟩ =
        calculateSignature mac appID ⟨scheme, host, path, q2⟩) ∧
    (∀ s, calculateSignature mac appID ⟨scheme, host, path, q ++ [("sig", s)]⟩ =
      calculateSignature mac appID ⟨scheme, host, path, q⟩) ∧
    (calculateSignature mac appID
        ⟨scheme, host, path, q.filter (fun p => !(p.1 == "sig"))⟩ =
      calculateSignature mac appID ⟨scheme, host, path, q⟩) ∧
    (calculateSignature mac appID ⟨scheme, host, path, q⟩ =
      mac appID (canonical ⟨scheme, host, path, q⟩)) := by
  refine ⟨?_, ?_, ?_, rfl⟩
  · intro hvals
    have hmem : ∀ k, k ∈ q.map Prod.fst ↔ k ∈ q2.map Prod.fst := by
      intro k
      rw [← not_iff_not, ← valuesOf_eq_nil_iff, ← valuesOf_eq_nil_iff, hvals k]
    exact congrArg (mac appID) (canonical_ext (fun k _ => hvals k) (fun k _ => hmem k))
  · intro s2
    exact congrArg (mac appID) (canonical_strip_sig _ _ _ _ _)
  · refine congrArg (mac appID) (canonical_ext ?_ ?_)
    · intro k hk
      unfold valuesOf
      congr 1
      rw [List.filter_filter]
      apply List.filter_congr
      intro a _
      cases hak : (a.1 == k) with
      | false => simp [hak]
      | true =>
        have ha2 : a.1 = k := beq_iff_eq.mp hak
        simp [hak, ha2, beq_eq_false_iff_ne.mpr hk]
    · intro k hk
      simp only [List.mem_map, List.mem_filter]
      constructor
      · rintro ⟨p, ⟨hp, _⟩, hpk⟩
        exact ⟨p, hp, hpk⟩
      · rintro ⟨p, hp, hpk⟩
        exact ⟨p, ⟨hp, by rw [hpk]; simp [beq_eq_false_iff_ne.mpr hk]⟩, hpk⟩

theorem C5_witness :
    calculateSignature macMk "app" ⟨"https", "h", "/handle", [("b", "2"), ("a", "1")]⟩ =
      calculateSignature macMk "app" ⟨"https", "h", "/handle", [("a", "1"), ("b", "2")]⟩ :=
  (C5_canonicalization macMk "app" "https" "h" "/handle" [("b", "2"), ("a", "1")]
    [("a", "1"), ("b", "2")]).1 (by
      intro k
      cases ha : (("a" : String) == k) <;> cases hb2 : (("b" : String) == k)
      · simp [valuesOf, List.filter_cons, List.filter_nil, ha, hb2]
      · simp [valuesOf, List.filter_cons, List.filter_nil, ha, hb2]
      · simp [valuesOf, List.filter_cons, List.filter_nil, ha, hb2]
      · exfalso
        have h1 : "a" = k := beq_iff_eq.mp ha
        have h2 : "b" = k := beq_iff_eq.mp hb2
        rw [← h2] at h1
        exact absurd h1 (by decide))

/-- C6: with the ignore flag off, a request whose path does not end in
"handle" is never signature-checked (nil error); on a handle path, a missing
or empty `sig` parameter is an error, a `sig` differing from the signature
recomputed over the reconstructed https URL (using X-Forwarded-Path when
present) is a mismatch error, and only a matching `sig` passes. -/
theorem C6_validate_fails_closed (mac : String → List Char → String) (appID : String)
    (r : Request) :
    (endsWithB r.path "handle" = false →
      ValidateRequestSignature mac appID false r = none) ∧
    (endsWithB r.path "handle" = true →
      (queryGet r.query "sig" = "" →
        ValidateRequestSignature mac appID false r = some .missingSig) ∧
      (queryGet r.query "sig" ≠ "" →
        queryGet r.query "sig" ≠ calculateSignature mac appID (reconstructedURL r) →
        ValidateRequestSignature mac appID false r =
          some (.mismatch (queryGet r.query "sig")
            (calculateSignature mac appID (reconstructedURL r)))) ∧
      (queryGet r.query "sig" ≠ "" →
        queryGet r.query "sig" = calculateSignature mac appID (reconstructedURL r) →
        ValidateRequestSignature mac appID false r = none)) := by
  refine ⟨?_, fun hp => ⟨?_, ?_, ?_⟩⟩
  · intro hp
    simp [ValidateRequestSignature, hp]
  · intro hs
    simp [ValidateRequestSignature, hp, hs]
  · intro hs hm
    simp only [ValidateRequestSignature, Bool.false_eq_true, if_false, hp, Bool.not_true,
      beq_eq_false_iff_ne.mpr hs, bne_iff_ne.mpr (Ne.symm hm), if_true]
  · intro hs hm
    simp only [ValidateRequestSignature, Bool.false_eq_true, if_false, hp, Bool.not_true,
      beq_eq_false_iff_ne.mpr hs, ← hm, bne_self_eq_false, if_true]

theorem C6_witness :
    ValidateRequestSignature macMk "app" false { host := "h", path := "/status" } = none ∧
    ValidateRequestSignature macMk "app" false { host := "h", path := "/handle" } =
      some .missingSig ∧
    ValidateRequestSignature macMk "app" false
      { host := "h", path := "/handle", query := [("sig", "bad")] } =
      some (.mismatch "bad" "apphttps://h/handle") ∧
    ValidateRequestSignature macMk "app" false
      { host := "h", path := "/handle",
        query := [("a", "1"), ("sig", "apphttps://h/handlea1")] } = none :=
  ⟨(C6_validate_fails_closed macMk "app" { host := "h", path := "/status" }).1 (by decide),
    ((C6_validate_fails_closed macMk "app" { host := "h", path := "/handle" }).2
      (by decide)).1 (by decide),
    (((C6_validate_fails_closed macMk "app"
      { host := "h", path := "/handle", query := [("sig", "bad")] }).2
      (by decide)).2.1 (by decide) (by decide)),
    (((C6_validate_fails_closed macMk "app"
      { host := "h", path := "/handle",
        query := [("a", "1"), ("sig", "apphttps://h/handlea1")] }).2
      (by decide)).2.2 (by decide) (by decide))⟩

end Nexmo
